import Mathlib

/-! Verification of the content-acquisition and resumable-processing pipeline of the
`systematic-review-data-extraction` repository, via a shallow embedding of the
relevant Python modules (`progress_tracker.py`, `cloudflare_r2.py`,
`rate_limiter.py`, `sheets_client.py`, `article_fetcher.py`, `pdf_processor.py`)
into Lean.  Strings are embedded as Lean `String`/`List Char`; SQLite tables as
lists of row structures; clock readings (`datetime.now()`) are passed in as
explicit parameters; exceptions of fallible operations are modelled with
`Except`/`Option` or by parametrising over the outcome.
-/

namespace SysRev

/-! Python string primitives

ASCII fragment of Python's `str` semantics used by the modules under study:
`str.strip`, `re.sub(r'\s+', ' ', ·)` and friends. -/

/-- Python `\s` / `str.isspace` on the ASCII range. -/
def pyIsSpace (c : Char) : Bool :=
  c = ' ' || c = '\t' || c = '\n' || c = '\r' || c = '\x0b' || c = '\x0c'

/-- Leading-whitespace removal (first half of Python `str.strip()`). -/
def stripLeft (l : List Char) : List Char := l.dropWhile pyIsSpace

/-- Trailing-whitespace removal (second half of Python `str.strip()`). -/
def stripRight (l : List Char) : List Char := (l.reverse.dropWhile pyIsSpace).reverse

/-- Python `str.strip()` on a character list. -/
def pyStripL (l : List Char) : List Char := stripRight (stripLeft l)

/-- Python `str.strip()`. -/
def pyStrip (s : String) : String := ⟨pyStripL s.data⟩

/-! ProgressTracker (src/src/progress_tracker.py)

The SQLite database is embedded as three lists of rows mirroring the
`articles`, `extraction_data` and `processing_log` tables; `datetime.now()`
is an explicit `now` parameter. -/

/-- One row of the `articles` table (`id` is the primary key;
columns absent from an INSERT are NULL, modelled by `none`). -/
structure ArticleRow where
  id : String
  title : Option String
  doi : Option String
  pmid : Option String
  status : String
  started_at : Option Nat
  completed_at : Option Nat
  error_message : Option String
  full_text_source : Option String
  extraction_summary : Option String
  deriving Repr, DecidableEq

/-- One row of the `extraction_data` table. -/
structure ExtractionRow where
  article_id : String
  category : String
  field_name : String
  field_value : String
  extracted_at : Nat
  deriving Repr, DecidableEq

/-- One row of the `processing_log` table. -/
structure LogRow where
  article_id : String
  timestamp : Nat
  event_type : String
  message : String
  details : Option String
  deriving Repr, DecidableEq

/-- The tracker database state. -/
structure TrackerDb where
  articles : List ArticleRow
  extraction_data : List ExtractionRow
  processing_log : List LogRow
  deriving Repr, DecidableEq

/-- Model of `SELECT status FROM articles WHERE id = ?` followed by `fetchone()`:
the status of the first row whose `id` matches, if any. -/
def selectStatus (db : TrackerDb) (article_id : String) : Option String :=
  (db.articles.find? (fun r => r.id == article_id)).map (·.status)

/-- The body of `ProgressTracker.is_processed` applied to the outcome of the
database query: the `except` branch returns `False`, otherwise
`result is not None and result[0] == 'completed'`. -/
def is_processed_run (query_outcome : Except String (Option String)) : Bool :=
  match query_outcome with
  | .error _ => false
  | .ok result =>
    match result with
    | none => false
    | some st => st == "completed"

/-- Model of `ProgressTracker.is_processed` when the database query succeeds. -/
def is_processed (db : TrackerDb) (article_id : String) : Bool :=
  is_processed_run (.ok (selectStatus db article_id))

/-- Models `json.dumps({k: len(v) for k, v in extracted_data.items()})`:
a deterministic rendering of the category → field-count map. -/
def summaryJson (data : List (String × List (String × String))) : String :=
  toString (data.map (fun p => (p.1, p.2.length)))

/-- Models `json.dumps(list(extracted_data.keys()))`. -/
def categoriesJson (data : List (String × List (String × String))) : String :=
  toString (data.map (·.1))

/-- The rows inserted into `extraction_data` by `log_success`: one row per
`(category, field_name, field_value)`, in iteration order. -/
def extractionRowsOf (article_id : String) (data : List (String × List (String × String)))
    (now : Nat) : List ExtractionRow :=
  (data.map (fun cf => cf.2.map
    (fun fv => ExtractionRow.mk article_id cf.1 fv.1 fv.2 now))).flatten

/-- The `processing_log` row appended by `log_success`. -/
def successLogRow (article_id : String) (data : List (String × List (String × String)))
    (now : Nat) : LogRow :=
  ⟨article_id, now, "success",
    "Successfully extracted data for " ++ toString data.length ++ " categories",
    some (categoriesJson data)⟩

/-- The per-row effect of `log_success`'s UPDATE statement. -/
def markCompleted (article_id summary : String) (now : Nat) (r : ArticleRow) : ArticleRow :=
  if r.id == article_id then
    { r with status := "completed", completed_at := some now,
             extraction_summary := some summary }
  else r

/-- Model of `ProgressTracker.log_success`: `UPDATE articles SET status='completed',
completed_at=?, extraction_summary=? WHERE id = ?` (no insertion if no row
matches), then one `extraction_data` INSERT per extracted field, then a
`success` event in `processing_log`. -/
def log_success (db : TrackerDb) (article_id : String)
    (extracted_data : List (String × List (String × String))) (now : Nat) : TrackerDb :=
  { articles := db.articles.map (markCompleted article_id (summaryJson extracted_data) now),
    extraction_data := db.extraction_data ++ extractionRowsOf article_id extracted_data now,
    processing_log := db.processing_log ++ [successLogRow article_id extracted_data now] }

/-- Python `full_text_source or 'unknown'`: falsy values become `"unknown"`. -/
def orUnknown (full_text_source : Option String) : String :=
  match full_text_source with
  | some s => if s = "" then "unknown" else s
  | none => "unknown"

/-- The per-row effect of `log_failure`'s UPDATE statement. -/
def markFailed (article_id error_message srcv : String) (r : ArticleRow) : ArticleRow :=
  if r.id == article_id then
    { r with status := "failed", error_message := some error_message,
             full_text_source := some srcv }
  else r

/-- The row inserted by `log_failure` when the UPDATE matched no row. -/
def failedRow (article_id error_message srcv : String) (now : Nat) : ArticleRow :=
  ⟨article_id, none, none, none, "failed", some now, none,
   some error_message, some srcv, none⟩

/-- Model of `ProgressTracker.log_failure`: `UPDATE articles SET status='failed',
error_message=?, full_text_source=? WHERE id = ?`; if `cursor.rowcount == 0`
(no row matched the UPDATE) the row is inserted directly in `failed` state;
then a `failure` event is appended. -/
def log_failure (db : TrackerDb) (article_id : String) (error_message : String)
    (full_text_source : Option String) (now : Nat) : TrackerDb :=
  { articles :=
      if db.articles.countP (fun r => r.id == article_id) = 0 then
        db.articles.map (markFailed article_id error_message (orUnknown full_text_source))
          ++ [failedRow article_id error_message (orUnknown full_text_source) now]
      else
        db.articles.map (markFailed article_id error_message (orUnknown full_text_source)),
    extraction_data := db.extraction_data,
    processing_log := db.processing_log ++ [⟨article_id, now, "failure", error_message, none⟩] }

/-- Model of `ProgressTracker.start_processing`: `INSERT OR REPLACE INTO articles`
(which drops any existing row with the same primary key) plus a `start` event. -/
def start_processing (db : TrackerDb) (article_id : String)
    (title doi pmid : String) (now : Nat) : TrackerDb :=
  let newRow : ArticleRow :=
    ⟨article_id, some title, some doi, some pmid, "processing", some now, none,
     none, none, none⟩
  { articles := (db.articles.filter (fun r => !(r.id == article_id))) ++ [newRow],
    extraction_data := db.extraction_data,
    processing_log := db.processing_log ++
      [⟨article_id, now, "start", "Started processing article", none⟩] }

/-! Helper lemmas for the tracker claims. -/

theorem find?_map_of_pred {α : Type} (p : α → Bool) (g : α → α)
    (hg : ∀ a, p (g a) = p a) (l : List α) :
    (l.map g).find? p = (l.find? p).map g := by
  induction l with
  | nil => rfl
  | cons a t ih =>
    rw [List.map_cons]
    cases h : p a with
    | true =>
      rw [List.find?_cons_of_pos _ (by rw [hg a, h]), List.find?_cons_of_pos _ h,
        Option.map_some']
    | false =>
      rw [List.find?_cons_of_neg _ (by simp [hg a, h]),
        List.find?_cons_of_neg _ (by simp [h]), ih]

theorem markFailed_pred (aid msg srcv : String) (r : ArticleRow) :
    ((markFailed aid msg srcv r).id == aid) = (r.id == aid) := by
  unfold markFailed
  split <;> rfl

theorem markCompleted_pred (aid summary : String) (now : Nat) (r : ArticleRow) :
    ((markCompleted aid summary now r).id == aid) = (r.id == aid) := by
  unfold markCompleted
  split <;> rfl

theorem find?_log_failure (db : TrackerDb) (aid msg : String) (src : Option String) (now : Nat) :
    ∃ r : ArticleRow, ((log_failure db aid msg src now).articles.find?
        (fun r => r.id == aid)) = some r ∧ (r.id == aid) = true := by
  unfold log_failure
  by_cases hm : db.articles.countP (fun r => r.id == aid) = 0
  · -- no pre-existing row: the fallback INSERT provides one
    have hnone : db.articles.find? (fun r => r.id == aid) = none := by
      rw [List.find?_eq_none]
      intro x hx hpx
      have hpos : 0 < db.articles.countP (fun r => r.id == aid) :=
        List.countP_pos_iff.mpr ⟨x, hx, hpx⟩
      omega
    have hnone' : (db.articles.map (markFailed aid msg (orUnknown src))).find?
        (fun r => r.id == aid) = none := by
      rw [find?_map_of_pred _ _ (markFailed_pred aid msg (orUnknown src)), hnone]
      rfl
    refine ⟨failedRow aid msg (orUnknown src) now, ?_, by simp [failedRow]⟩
    simp only [if_pos hm]
    rw [List.find?_append, hnone']
    simp [List.find?, failedRow]
  · -- a row existed: the UPDATE rewrote it in place
    obtain ⟨r₀, hr₀⟩ : ∃ r₀, db.articles.find? (fun r => r.id == aid) = some r₀ := by
      cases hf : db.articles.find? (fun r => r.id == aid) with
      | none =>
        exfalso
        apply hm
        rw [List.countP_eq_zero]
        intro x hx
        have hx' := List.find?_eq_none.mp hf x hx
        simpa using hx'
      | some r₀ => exact ⟨r₀, rfl⟩
    have hid : (r₀.id == aid) = true := by
      have h' := List.find?_some hr₀
      simpa using h'
    refine ⟨markFailed aid msg (orUnknown src) r₀, ?_, ?_⟩
    · simp only [if_neg hm]
      rw [find?_map_of_pred _ _ (markFailed_pred aid msg (orUnknown src)), hr₀,
        Option.map_some']
    · rw [markFailed_pred, hid]

theorem selectStatus_log_success_of_found (db : TrackerDb) (aid : String)
    (data : List (String × List (String × String))) (now : Nat) (r₀ : ArticleRow)
    (h : db.articles.find? (fun r => r.id == aid) = some r₀)
    (hid : (r₀.id == aid) = true) :
    selectStatus (log_success db aid data now) aid = some "completed" := by
  unfold selectStatus log_success
  rw [find?_map_of_pred _ _ (markCompleted_pred aid (summaryJson data) now), h,
    Option.map_some', Option.map_some']
  unfold markCompleted
  rw [if_pos hid]

/-- C1. For every database state, item id, failure message and success
payload, running `log_failure` and then `log_success` for the same id leaves
the stored status `completed`, and `is_processed` returns `true`: the later
transition wins and a prior failure is not sticky. -/
theorem log_failure_then_log_success_completed
    (db : TrackerDb) (aid msg : String) (src : Option String)
    (data : List (String × List (String × String))) (now₁ now₂ : Nat) :
    selectStatus (log_success (log_failure db aid msg src now₁) aid data now₂) aid
        = some "completed"
      ∧ is_processed (log_success (log_failure db aid msg src now₁) aid data now₂) aid
        = true := by
  obtain ⟨r₀, hr₀, hid⟩ := find?_log_failure db aid msg src now₁
  have hsel := selectStatus_log_success_of_found
    (log_failure db aid msg src now₁) aid data now₂ r₀ hr₀ hid
  refine ⟨hsel, ?_⟩
  unfold is_processed is_processed_run
  rw [hsel]
  decide

theorem map_eq_self_of_no_match {α : Type} (p : α → Bool) (g : α → α)
    (hg : ∀ a, p a = false → g a = a) :
    ∀ l : List α, l.find? p = none → l.map g = l := by
  intro l hl
  induction l with
  | nil => rfl
  | cons a t ih =>
    cases h : p a with
    | true =>
      rw [List.find?_cons_of_pos _ h] at hl
      exact absurd hl (by simp)
    | false =>
      rw [List.find?_cons_of_neg _ (by simp [h])] at hl
      rw [List.map_cons, hg a h, ih hl]

/-- C8. If `log_success` is called for an id with no `articles` row, the
extracted fields are still inserted into `extraction_data` and a success event
is appended to `processing_log`, but the `articles` table is unchanged (no row
is created), so `is_processed` stays `false`. -/
theorem log_success_without_row_frame
    (db : TrackerDb) (aid : String) (data : List (String × List (String × String)))
    (now : Nat) (h : db.articles.find? (fun r => r.id == aid) = none) :
    (log_success db aid data now).articles = db.articles
      ∧ (log_success db aid data now).extraction_data
          = db.extraction_data ++ extractionRowsOf aid data now
      ∧ (log_success db aid data now).processing_log
          = db.processing_log ++ [successLogRow aid data now]
      ∧ is_processed (log_success db aid data now) aid = false := by
  have harts : (log_success db aid data now).articles = db.articles := by
    unfold log_success
    exact map_eq_self_of_no_match _ _
      (fun r hr => by unfold markCompleted; rw [if_neg (by simp [hr])]) _ h
  refine ⟨harts, rfl, rfl, ?_⟩
  unfold is_processed is_processed_run selectStatus
  rw [harts, h]
  rfl

/-- Witness for C8 at a concrete empty database. -/
theorem log_success_without_row_frame_witness :
    (([] : List ArticleRow).find? (fun r => r.id == "a1") = none)
      ∧ ((log_success ⟨[], [], []⟩ "a1" [("c", [("f", "v")])] 0).articles
            = (TrackerDb.mk [] [] []).articles
        ∧ (log_success ⟨[], [], []⟩ "a1" [("c", [("f", "v")])] 0).extraction_data
            = (TrackerDb.mk [] [] []).extraction_data ++ extractionRowsOf "a1" [("c", [("f", "v")])] 0
        ∧ (log_success ⟨[], [], []⟩ "a1" [("c", [("f", "v")])] 0).processing_log
            = (TrackerDb.mk [] [] []).processing_log ++ [successLogRow "a1" [("c", [("f", "v")])] 0]
        ∧ is_processed (log_success ⟨[], [], []⟩ "a1" [("c", [("f", "v")])] 0) "a1" = false) :=
  ⟨rfl, log_success_without_row_frame ⟨[], [], []⟩ "a1" [("c", [("f", "v")])] 0 rfl⟩

/-- C9. `is_processed` treats any failure of the underlying database query
as "not processed": the `except` branch of its body returns `false`, so a
storage error during resume causes the item to be reprocessed rather than
skipped and never propagates an exception (the embedding is total). -/
theorem is_processed_error_false (e : String) :
    is_processed_run (Except.error e) = false := rfl

/-! CloudflareR2Storage._generate_pdf_key (src/src/cloudflare_r2.py)

The article metadata dictionary is embedded as a record of its four
identifier fields, with `""` standing for a missing/None/empty (falsy)
value; `datetime.now(timezone.utc)` is an explicit `now` parameter. -/

/-- The identifier fields of `article_info` consulted by `_generate_pdf_key`. -/
structure ArticleInfo where
  doi : String
  pmid : String
  title : String
  id : String
  deriving Repr, DecidableEq

/-- Model of `str(article_info['doi']).replace('/', '_').replace(':', '_')`. -/
def cleanDoi (doi : String) : String :=
  (doi.replace "/" "_").replace ":" "_"

/-- Models `hashlib.md5(title.encode()).hexdigest()[:8]`: an external pure
hash function of the title; any pure function has the determinism properties
relied on here. -/
def md5Hex8 (s : String) : String :=
  let h := s.data.foldl (fun a c => (a * 131 + c.toNat) % 4294967296) 7
  ⟨(Nat.toDigits 16 h).take 8⟩

/-- Models `datetime.now(timezone.utc).strftime('%Y%m%d_%H%M%S_%f')[:-3]`:
a rendering of the (nondeterministic) clock reading passed in as `now`. -/
def timestampPart (now : Nat) : String := toString now

/-- The `identifier_parts` list of `_generate_pdf_key`: one entry per truthy
identifier, in the fixed order doi, pmid, title hash, id. -/
def identifierParts (a : ArticleInfo) : List String :=
  (if a.doi ≠ "" then ["doi_" ++ cleanDoi a.doi] else [])
    ++ (if a.pmid ≠ "" then ["pmid_" ++ a.pmid] else [])
    ++ (if a.title ≠ "" then ["title_" ++ md5Hex8 a.title] else [])
    ++ (if a.id ≠ "" then ["id_" ++ a.id] else [])

/-- The R2 configuration field used by key generation. -/
structure R2Cfg where
  pdf_prefix : String
  deriving Repr, DecidableEq

/-- Model of `CloudflareR2Storage._generate_pdf_key`: joins the first two identifier
parts with `_` under the configured prefix, falling back to a timestamp-based
`unknown_...` name when no identifier is present. -/
def generate_pdf_key (cfg : R2Cfg) (a : ArticleInfo) (now : Nat) : String :=
  let parts := identifierParts a
  let parts := if parts = [] then ["unknown_" ++ timestampPart now] else parts
  R2Cfg.pdf_prefix cfg ++ String.intercalate "_" (parts.take 2) ++ ".pdf"

theorem identifierParts_ne_nil (a : ArticleInfo)
    (h : a.doi ≠ "" ∨ a.pmid ≠ "" ∨ a.title ≠ "" ∨ a.id ≠ "") :
    identifierParts a ≠ [] := by
  unfold identifierParts
  rcases h with h | h | h | h <;> simp [h]

/-- C3. Cache key derivation is deterministic: whenever the article has at
least one identifier (doi, pmid, title or id), the generated key does not
depend on the clock reading, hence any two calls with the same identifier
values — within one run or across process restarts — return the same key.
(The timestamp fallback is taken only when no identifier is present.) -/
theorem generate_pdf_key_deterministic (cfg : R2Cfg) (a : ArticleInfo) (t₁ t₂ : Nat)
    (h : a.doi ≠ "" ∨ a.pmid ≠ "" ∨ a.title ≠ "" ∨ a.id ≠ "") :
    generate_pdf_key cfg a t₁ = generate_pdf_key cfg a t₂ := by
  unfold generate_pdf_key
  simp only [if_neg (identifierParts_ne_nil a h)]

/-- Witness for C3: a doi-only article keyed at two different times. -/
theorem generate_pdf_key_deterministic_witness :
    generate_pdf_key ⟨"pdfs/"⟩ ⟨"10.1234/x", "", "", ""⟩ 20250101
      = generate_pdf_key ⟨"pdfs/"⟩ ⟨"10.1234/x", "", "", ""⟩ 20260606 :=
  generate_pdf_key_deterministic ⟨"pdfs/"⟩ ⟨"10.1234/x", "", "", ""⟩ 20250101 20260606
    (Or.inl (by decide))

/-- C4 counterexample. The claim "any two non-empty subsets of an
article's identifiers produce the same key" is false: for an article carrying
both a DOI and a PMID, a run that sees only the DOI and a run that sees only
the PMID derive different keys. -/
theorem generate_pdf_key_subset_dependent :
    generate_pdf_key ⟨"pdfs/"⟩ ⟨"10.1234/x", "", "", ""⟩ 0
        ≠ generate_pdf_key ⟨"pdfs/"⟩ ⟨"", "9876", "", ""⟩ 0 := by
  decide

/-- C4 (amended). The key is derived from the first two available
identifier parts in priority order (doi, pmid, title hash, id), so it is
stable only across runs that see the same identifier values: if two runs see
identical doi/pmid/title/id fields with at least one non-empty, they derive
the same key whatever the clock says. -/
theorem generate_pdf_key_stable_same_identifiers (cfg : R2Cfg) (a b : ArticleInfo)
    (t₁ t₂ : Nat) (hdoi : a.doi = b.doi) (hpmid : a.pmid = b.pmid)
    (htitle : a.title = b.title) (hid : a.id = b.id)
    (h : a.doi ≠ "" ∨ a.pmid ≠ "" ∨ a.title ≠ "" ∨ a.id ≠ "") :
    generate_pdf_key cfg a t₁ = generate_pdf_key cfg b t₂ := by
  have hab : a = b := by
    cases a; cases b
    simp_all
  subst hab
  exact generate_pdf_key_deterministic cfg a t₁ t₂ h

/-- Witness for the amended C4. -/
theorem generate_pdf_key_stable_same_identifiers_witness :
    generate_pdf_key ⟨"pdfs/"⟩ ⟨"", "55", "Trial", ""⟩ 3
      = generate_pdf_key ⟨"pdfs/"⟩ ⟨"", "55", "Trial", ""⟩ 4 :=
  generate_pdf_key_stable_same_identifiers ⟨"pdfs/"⟩ ⟨"", "55", "Trial", ""⟩
    ⟨"", "55", "Trial", ""⟩ 3 4 rfl rfl rfl rfl (Or.inr (Or.inl (by decide)))

/-! RateLimiter (src/src/rate_limiter.py)

Timestamps are embedded as rationals (seconds); `datetime.now()` is an
explicit `now` parameter and `asyncio.sleep` durations are returned as data
(the window wait and the fixed base delay separately, mirroring the two
distinct `sleep` calls in `_wait_for_service`). -/

/-- Rate limiter configuration (per-minute limits and smoothing delay). -/
structure RateLimitCfg where
  sheets_requests_per_minute : Nat
  api_requests_per_minute : Nat
  azure_requests_per_minute : Nat
  base_delay : ℚ
  deriving Repr, DecidableEq

/-- Outcome of one admission on a single service queue. -/
structure WaitResult where
  windowWait : ℚ
  baseWait : ℚ
  queue : List ℚ
  deriving Repr, DecidableEq

/-- The per-queue body of `RateLimiter._wait_for_service`: purge timestamps
older than one minute, sleep until the oldest remaining request leaves the
window if the queue is at the limit, optionally sleep the base delay, then
append the current timestamp.  (The `none` head case is reachable only with
`limit = 0` and an empty queue, where the Python code raises `IndexError`.) -/
def wait_for_queue (limit : Nat) (base_delay : ℚ) (now : ℚ) (q : List ℚ) : WaitResult :=
  let q₁ := q.dropWhile (fun ts => decide (ts < now - 60))
  let w : ℚ :=
    if q₁.length ≥ limit then
      match q₁.head? with
      | some oldest =>
        let wait_seconds := oldest + 60 - now
        if wait_seconds > 0 then wait_seconds else 0
      | none => 0
    else 0
  { windowWait := w,
    baseWait := if base_delay > 0 then base_delay else 0,
    queue := q₁ ++ [now] }

/-- The per-service timestamp queues of the limiter. -/
structure RLState where
  sheets : List ℚ
  api : List ℚ
  azure : List ℚ
  deriving Repr, DecidableEq

/-- Model of `RateLimiter._wait_for_service`: dispatch on the service name; a name
outside the tracked set logs a warning and returns immediately, with no wait
and no queue mutation. -/
def wait_for_service (cfg : RateLimitCfg) (service : String) (now : ℚ)
    (st : RLState) : ℚ × ℚ × RLState :=
  if service = "sheets" then
    let r := wait_for_queue cfg.sheets_requests_per_minute cfg.base_delay now st.sheets
    (r.windowWait, r.baseWait, { st with sheets := r.queue })
  else if service = "api" then
    let r := wait_for_queue cfg.api_requests_per_minute cfg.base_delay now st.api
    (r.windowWait, r.baseWait, { st with api := r.queue })
  else if service = "azure" then
    let r := wait_for_queue cfg.azure_requests_per_minute cfg.base_delay now st.azure
    (r.windowWait, r.baseWait, { st with azure := r.queue })
  else (0, 0, st)

/-- Model of `n` back-to-back admissions on one queue at the same instant `t`,
starting from an empty queue: final queue and the sequence of window waits. -/
def admitRepeatedly (limit : Nat) (base_delay : ℚ) (t : ℚ) : Nat → List ℚ × List ℚ
  | 0 => ([], [])
  | Nat.succ k =>
    let prev := admitRepeatedly limit base_delay t k
    let r := wait_for_queue limit base_delay t prev.1
    (r.queue, prev.2 ++ [r.windowWait])

theorem dropWhile_replicate_self {α : Type} {p : α → Bool} {t : α} (h : p t = false) (k : Nat) :
    (List.replicate k t).dropWhile p = List.replicate k t := by
  cases k with
  | zero => rfl
  | succ n => rw [List.replicate_succ, List.dropWhile_cons_of_neg (by simp [h])]

theorem admitRepeatedly_under_limit (limit : Nat) (d t : ℚ) :
    ∀ k : Nat, k ≤ limit →
      admitRepeatedly limit d t k = (List.replicate k t, List.replicate k 0) := by
  intro k
  induction k with
  | zero => intro _; rfl
  | succ n ih =>
    intro hk
    have hlt : n < limit := Nat.lt_of_succ_le hk
    unfold admitRepeatedly
    rw [ih (Nat.le_of_lt hlt)]
    have hdrop : (List.replicate n t).dropWhile (fun ts => decide (ts < t - 60))
        = List.replicate n t :=
      dropWhile_replicate_self (by simp) n
    unfold wait_for_queue
    simp only [hdrop, List.length_replicate]
    rw [if_neg (by omega)]
    simp [List.replicate_succ']

/-- C5. For every per-minute limit `N ≥ 1`, `N + 1` admissions in
immediate succession admit the first `N` calls with no window wait, and on
the `(N+1)`-th call compute a window wait that is strictly positive and at
most 60 seconds before recording the request in the queue. -/
theorem rate_limiter_window_wait (N : Nat) (d t : ℚ) (hN : 1 ≤ N) :
    ∃ w : ℚ,
      admitRepeatedly N d t (N + 1)
          = (List.replicate (N + 1) t, List.replicate N 0 ++ [w])
        ∧ 0 < w ∧ w ≤ 60 := by
  refine ⟨60, ?_, by norm_num, le_refl _⟩
  unfold admitRepeatedly
  rw [admitRepeatedly_under_limit N d t N (le_refl N)]
  have hdrop : (List.replicate N t).dropWhile (fun ts => decide (ts < t - 60))
      = List.replicate N t :=
    dropWhile_replicate_self (by simp) N
  unfold wait_for_queue
  simp only [hdrop, List.length_replicate]
  rw [if_pos (le_refl N)]
  obtain ⟨m, rfl⟩ : ∃ m, N = m + 1 := ⟨N - 1, by omega⟩
  simp only [List.replicate_succ, List.head?_cons]
  rw [if_pos (by linarith)]
  rw [Prod.mk.injEq]
  refine ⟨?_, ?_⟩
  · rw [← List.replicate_succ, ← List.replicate_succ', ← List.replicate_succ]
  · rw [show t + 60 - t = (60 : ℚ) by ring]

/-- Witness for C5 at `N = 2`, base delay 1, time 0. -/
theorem rate_limiter_window_wait_witness :
    ∃ w : ℚ,
      admitRepeatedly 2 1 0 3 = (List.replicate 3 0, List.replicate 2 0 ++ [w])
        ∧ 0 < w ∧ w ≤ 60 :=
  rate_limiter_window_wait 2 1 0 (by norm_num)

/-- C10. Admission for a service name outside the tracked set
(`sheets`, `api`, `azure`) returns immediately: no window wait, no base
delay, and no timestamp queue is mutated. -/
theorem wait_for_service_unknown (cfg : RateLimitCfg) (service : String) (now : ℚ)
    (st : RLState) (h₁ : service ≠ "sheets") (h₂ : service ≠ "api")
    (h₃ : service ≠ "azure") :
    wait_for_service cfg service now st = (0, 0, st) := by
  unfold wait_for_service
  rw [if_neg h₁, if_neg h₂, if_neg h₃]

/-- Witness for C10 at the concrete service name `"database"`. -/
theorem wait_for_service_unknown_witness :
    wait_for_service ⟨60, 30, 60, 1⟩ "database" 5 ⟨[1], [2], [3]⟩
      = (0, 0, ⟨[1], [2], [3]⟩) :=
  wait_for_service_unknown ⟨60, 30, 60, 1⟩ "database" 5 ⟨[1], [2], [3]⟩
    (by decide) (by decide) (by decide)

/-! SheetsClient.get_articles (src/src/sheets_client.py)

The fetched spreadsheet `values` (header row followed by data rows) are the
input; each article dictionary is embedded as an insertion-ordered
association list with overwriting assignment, as in a Python `dict`. -/

/-- Model of `header.lower().replace(' ', '_')` (single-character replace, charwise). -/
def normalizeHeader (h : String) : String :=
  ⟨(h.data.map Char.toLower).map (fun c => if c = ' ' then '_' else c)⟩

/-- Python `dict` assignment `d[k] = v`: overwrite in place, else append. -/
def dictSet (d : List (String × String)) (k v : String) : List (String × String) :=
  if d.any (fun p => p.1 == k) then d.map (fun p => if p.1 == k then (k, v) else p)
  else d ++ [(k, v)]

/-- Python `d.get(k, dflt)`. -/
def dictGet (d : List (String × String)) (k dflt : String) : String :=
  match d.find? (fun p => p.1 == k) with
  | some p => p.2
  | none => dflt

/-- The article dictionary built for one spreadsheet row: row is padded with
`''` to the header length, `row_number`/`id` fields are set first, then each
header's normalized name maps to the row cell. -/
def buildArticle (row_number : Nat) (headers row : List String) : List (String × String) :=
  let padded := row ++ List.replicate (headers.length - row.length) ""
  (headers.zip padded).foldl (fun d hv => dictSet d (normalizeHeader hv.1) hv.2)
    [("row_number", toString row_number), ("id", toString row_number)]

/-- The inclusion test of `get_articles`:
`bool(article.get('doi', '').strip()) or pmid or url`. -/
def eligibleArticle (a : List (String × String)) : Bool :=
  pyStrip (dictGet a "doi" "") != "" || pyStrip (dictGet a "pmid" "") != ""
    || pyStrip (dictGet a "url" "") != ""

/-- Model of `SheetsClient.get_articles` on the fetched cell values: skip the header
row, build one dictionary per data row (numbered from 2), and keep exactly
the rows with a truthy stripped doi, pmid or url. -/
def get_articles (values : List (List String)) : List (List (String × String)) :=
  match values with
  | [] => []
  | headers :: rows =>
    (rows.enum.map (fun kr => buildArticle (kr.1 + 2) headers kr.2)).filter eligibleArticle

theorem mem_enumFrom_of_getElem? {α : Type} :
    ∀ (l : List α) (k n : Nat) (a : α), l[k]? = some a → (n + k, a) ∈ l.enumFrom n := by
  intro l
  induction l with
  | nil => intro k n a h; simp at h
  | cons x t ih =>
    intro k n a h
    cases k with
    | zero =>
      rw [List.getElem?_cons_zero] at h
      cases h
      rw [List.enumFrom]
      simp
    | succ j =>
      rw [List.getElem?_cons_succ] at h
      have hmem := ih j (n + 1) a h
      rw [List.enumFrom]
      apply List.mem_cons_of_mem
      have harith : n + (j + 1) = (n + 1) + j := by omega
      rw [harith]
      exact hmem

/-- C7 counterexample. The claim that a row with a non-empty `title`
identifier is included in the eligible work list is false: a sheet whose only
column is `Title` yields an article with a non-empty title, yet
`get_articles` excludes it (only doi, pmid and url confer eligibility). -/
theorem get_articles_title_not_eligible :
    get_articles [["Title"], ["A Sufficiently Long Paper Title"]] = []
      ∧ pyStrip (dictGet (buildArticle 2 ["Title"] ["A Sufficiently Long Paper Title"])
          "title" "") ≠ "" := by
  refine ⟨by decide, by decide⟩

/-- C7 (amended). The eligible work list contains exactly the data rows
with at least one non-empty (after stripping) identifier among
doi, pmid and url: any row whose doi, pmid and url are all empty — including
rows with no identifiers at all, and rows carrying only a title — is
excluded, and any row with one of these three non-empty is included. -/
theorem get_articles_membership (headers : List String) (rows : List (List String))
    (k : Nat) (row : List String) (hk : rows[k]? = some row) :
    (buildArticle (k + 2) headers row ∈ get_articles (headers :: rows)
      ↔ (pyStrip (dictGet (buildArticle (k + 2) headers row) "doi" "") ≠ ""
          ∨ pyStrip (dictGet (buildArticle (k + 2) headers row) "pmid" "") ≠ ""
          ∨ pyStrip (dictGet (buildArticle (k + 2) headers row) "url" "") ≠ "")) := by
  unfold get_articles
  constructor
  · intro hmem
    have helig := (List.mem_filter.mp hmem).2
    unfold eligibleArticle at helig
    simpa [Bool.or_eq_true, bne_iff_ne, or_assoc] using helig
  · intro hd
    apply List.mem_filter.mpr
    refine ⟨?_, ?_⟩
    · apply List.mem_map.mpr
      refine ⟨(k, row), ?_, rfl⟩
      have hmem := mem_enumFrom_of_getElem? rows k 0 row hk
      simpa [List.enum] using hmem
    · unfold eligibleArticle
      simpa [Bool.or_eq_true, bne_iff_ne, or_assoc] using hd

/-- Witness for the amended C7: a row with only a DOI is included. -/
theorem get_articles_membership_witness :
    (([["10.1/x"]] : List (List String))[0]? = some ["10.1/x"])
      ∧ buildArticle 2 ["DOI"] ["10.1/x"] ∈ get_articles [["DOI"], ["10.1/x"]] :=
  ⟨rfl, (get_articles_membership ["DOI"] [["10.1/x"]] 0 ["10.1/x"] rfl).mpr
    (Or.inl (by decide))⟩

/-! Text cleaning (regex substitutions shared by the fetcher and the PDF
processor)

`re.sub` with the patterns appearing in the code is embedded directly:
a character-class-run substitution for `\s+` / `[ \t]+`, a filter for the
non-printable class, and a per-whitespace-run rewrite for
`\n\s*\n\s*\n+ → '\n\n'` (the leftmost greedy match of that pattern spans
from the first to the last newline of a maximal whitespace run containing at
least three newlines). -/

/-- State-passing scan for `subRuns`: `inRun` records whether the previous
character belonged to the class, so each maximal run emits `rep` once. -/
def subRunsAux (p : Char → Bool) (rep : Char) : Bool → List Char → List Char
  | _, [] => []
  | inRun, c :: cs =>
    if p c then
      if inRun then subRunsAux p rep true cs
      else rep :: subRunsAux p rep true cs
    else c :: subRunsAux p rep false cs

/-- Model of `re.sub(p+, rep, ·)` for a character class `p`: each maximal run of
characters in the class becomes the single character `rep`. -/
def subRuns (p : Char → Bool) (rep : Char) (l : List Char) : List Char :=
  subRunsAux p rep false l

/-- The character class kept by `re.sub(r'[^\x20-\x7E\n\r\t]', '', ·)`. -/
def keepPrintable (c : Char) : Bool :=
  (32 ≤ c.toNat && c.toNat ≤ 126) || c = '\n' || c = '\r' || c = '\t'

/-- Model of `re.sub(r'[^\x20-\x7E\n\r\t]', '', ·)`. -/
def removeNonPrintable (l : List Char) : List Char := l.filter keepPrintable

/-- Rewrite of one maximal whitespace run under
`re.sub(r'\n\s*\n\s*\n+', '\n\n', ·)`: with at least three newlines in the
run, the greedy match runs from the first to the last newline and is replaced
by two newlines; surrounding non-newline whitespace survives. -/
def transformWsRun (run : List Char) : List Char :=
  if 3 ≤ run.count '\n' then
    run.takeWhile (fun c => c != '\n') ++ '\n' :: '\n' ::
      (run.reverse.takeWhile (fun c => c != '\n')).reverse
  else run

/-- Scanner for `collapseBlankRuns`: `run` holds the current whitespace run
in reverse; at each run boundary the completed run is rewritten. -/
def collapseBlankRunsGo (run : List Char) : List Char → List Char
  | [] => transformWsRun run.reverse
  | c :: cs =>
    if pyIsSpace c then collapseBlankRunsGo (c :: run) cs
    else transformWsRun run.reverse ++ c :: collapseBlankRunsGo [] cs

/-- Model of `re.sub(r'\n\s*\n\s*\n+', '\n\n', ·)` over the whole text: matches cannot
cross non-whitespace characters, so each maximal whitespace run is rewritten
independently. -/
def collapseBlankRuns (l : List Char) : List Char := collapseBlankRunsGo [] l

/-- Model of `ArticleFetcher._clean_text`: whitespace-run collapse, printable filter,
blank-line normalization, strip (`if not text: return ""` first). -/
def clean_text (s : String) : String :=
  if s = "" then ""
  else pyStrip ⟨collapseBlankRuns (removeNonPrintable (subRuns pyIsSpace ' ' s.data))⟩

/-! ArticleFetcher.fetch_article (src/src/article_fetcher.py)

The fallback chain is the list of `(source_name, fetch_func, identifier)`
tuples; the behaviour of each `fetch_func` (a network call) is part of the
input, as an outcome: it either raises or returns an optional string.
The logger calls of the loop are modelled as an event trace, so that which
source satisfied the request is part of the function's observable output. -/

/-- Result of awaiting one source's fetch function. -/
inductive FetchOutcome where
  | raises
  | returns (content : Option String)
  deriving Repr, DecidableEq

/-- One entry of the `sources` list of `fetch_article`. -/
structure Source where
  name : String
  identifier : String
  outcome : FetchOutcome
  deriving Repr, DecidableEq

/-- The logger calls made by `fetch_article`, in order. -/
inductive LogEvent where
  | trying (name identifier : String)
  | fetchedFrom (name : String)
  | fetchFailed (name : String)
  | noFullTextWarning
  | noContentError
  deriving Repr, DecidableEq

/-- The source-iteration loop of `fetch_article`: skip empty identifiers;
log and move on when the fetch raises; accept the first content that is
truthy with stripped length above the 500-character threshold, returning its
cleaned text at once. -/
def fetchLoop : List Source → Option String × List LogEvent
  | [] => (none, [])
  | s :: rest =>
    if s.identifier = "" then fetchLoop rest
    else
      match s.outcome with
      | .raises =>
        ((fetchLoop rest).1,
         .trying s.name s.identifier :: .fetchFailed s.name :: (fetchLoop rest).2)
      | .returns none =>
        ((fetchLoop rest).1, .trying s.name s.identifier :: (fetchLoop rest).2)
      | .returns (some c) =>
        if c != "" && decide (500 < (pyStrip c).length) then
          (some (clean_text c), [.trying s.name s.identifier, .fetchedFrom s.name])
        else
          ((fetchLoop rest).1, .trying s.name s.identifier :: (fetchLoop rest).2)

/-- Model of `ArticleFetcher.fetch_article`: run the fallback chain; if it yields
nothing, fall back to metadata-only content (whose truthiness is the
`metadata_outcome` input), else report no content. -/
def fetch_article (sources : List Source) (metadata_outcome : Option String) :
    Option String × List LogEvent :=
  match fetchLoop sources with
  | (some t, log) => (some t, log)
  | (none, log) =>
    match metadata_outcome with
    | some m => (some m, log ++ [.noFullTextWarning])
    | none => (none, log ++ [.noFullTextWarning, .noContentError])

/-- The log events contributed by one rejected source before moving on. -/
def skipEvents (s : Source) : List LogEvent :=
  if s.identifier = "" then []
  else
    match s.outcome with
    | .raises => [.trying s.name s.identifier, .fetchFailed s.name]
    | .returns _ => [.trying s.name s.identifier]

theorem fetchLoop_cons_skip (s : Source) (rest : List Source)
    (hs : s.outcome = .raises
      ∨ ∀ c', s.outcome = .returns (some c') → (pyStrip c').length ≤ 500) :
    fetchLoop (s :: rest) = ((fetchLoop rest).1, skipEvents s ++ (fetchLoop rest).2) := by
  by_cases hsid : s.identifier = ""
  · simp [fetchLoop, skipEvents, hsid]
  · rcases ho : s.outcome with _ | oc
    · simp [fetchLoop, skipEvents, hsid, ho]
    · rcases oc with _ | c'
      · simp [fetchLoop, skipEvents, hsid, ho]
      · have hshort : (pyStrip c').length ≤ 500 := by
          rcases hs with hs | hs
          · rw [ho] at hs
            exact absurd hs (by simp)
          · exact hs c' ho
        have hcond : (c' != "" && decide (500 < (pyStrip c').length)) = false := by
          simp only [Bool.and_eq_false_iff, decide_eq_false_iff_not, not_lt]
          right
          exact hshort
        simp [fetchLoop, skipEvents, hsid, ho, hcond]

theorem fetchLoop_first_success (S : Source) (c : String)
    (hS : S.outcome = .returns (some c)) (hid : S.identifier ≠ "")
    (hc : 500 < (pyStrip c).length) :
    ∀ pre : List Source,
      (∀ s ∈ pre, s.outcome = .raises
        ∨ ∀ c', s.outcome = .returns (some c') → (pyStrip c').length ≤ 500) →
      ∀ post : List Source,
        fetchLoop (pre ++ S :: post) = fetchLoop (pre ++ S :: [])
          ∧ (fetchLoop (pre ++ S :: post)).1 = some (clean_text c)
          ∧ LogEvent.fetchedFrom S.name ∈ (fetchLoop (pre ++ S :: post)).2 := by
  have hcne : (c != "") = true := by
    rcases eq_or_ne c "" with h | h
    · subst h
      simp [pyStrip, pyStripL, stripLeft, stripRight] at hc
    · simp [h]
  have haccept : ∀ post : List Source,
      fetchLoop (S :: post)
        = (some (clean_text c), [.trying S.name S.identifier, .fetchedFrom S.name]) := by
    intro post
    have hcond : (c != "" && decide (500 < (pyStrip c).length)) = true := by
      rw [hcne, Bool.true_and, decide_eq_true_eq]
      exact hc
    simp [fetchLoop, hid, hS, hcond]
  intro pre
  induction pre with
  | nil =>
    intro _ post
    rw [List.nil_append, List.nil_append, haccept post, haccept []]
    exact ⟨rfl, rfl, by simp⟩
  | cons s pre' ih =>
    intro hpre post
    have hs := hpre s (List.mem_cons_self _ _)
    obtain ⟨h₁, h₂, h₃⟩ := ih (fun x hx => hpre x (List.mem_cons_of_mem _ hx)) post
    rw [h₁] at h₂ h₃
    rw [List.cons_append, List.cons_append, fetchLoop_cons_skip s _ hs,
      fetchLoop_cons_skip s _ hs, h₁]
    exact ⟨rfl, h₂, by simp [h₃]⟩

/-- C2. In any fallback chain in which every source before `S` raises or
returns text at or below the 500-character threshold, and `S` returns text
above the threshold, `fetch_article` returns `S`'s cleaned text, its result
does not depend on the sources after `S` (none of them is tried), and the
name of the source used is recorded in the event trace alongside the
result. -/
theorem fetch_article_first_success (pre post : List Source) (S : Source)
    (meta : Option String) (c : String)
    (hpre : ∀ s ∈ pre, s.outcome = .raises
      ∨ ∀ c', s.outcome = .returns (some c') → (pyStrip c').length ≤ 500)
    (hS : S.outcome = .returns (some c)) (hid : S.identifier ≠ "")
    (hc : 500 < (pyStrip c).length) :
    fetch_article (pre ++ S :: post) meta = fetch_article (pre ++ S :: []) meta
      ∧ (fetch_article (pre ++ S :: post) meta).1 = some (clean_text c)
      ∧ LogEvent.fetchedFrom S.name ∈ (fetch_article (pre ++ S :: post) meta).2 := by
  obtain ⟨h₁, h₂, h₃⟩ := fetchLoop_first_success S c hS hid hc pre hpre post
  obtain ⟨log, hlog⟩ : ∃ log, fetchLoop (pre ++ S :: post) = (some (clean_text c), log) := by
    refine ⟨(fetchLoop (pre ++ S :: post)).2, ?_⟩
    rw [← h₂]
  unfold fetch_article
  rw [hlog, ← h₁, hlog]
  rw [hlog] at h₃
  exact ⟨rfl, rfl, h₃⟩

theorem pyStrip_replicate_length (n : Nat) (c : Char) (h : pyIsSpace c = false) :
    (pyStrip ⟨List.replicate n c⟩).length = n := by
  show (pyStripL (List.replicate n c)).length = n
  unfold pyStripL stripLeft stripRight
  rw [dropWhile_replicate_self h, List.reverse_replicate, dropWhile_replicate_self h,
    List.reverse_replicate, List.length_replicate]

/-- Witness for C2: a three-source chain where source 1 returns 50
characters, source 2 raises, and source 3 returns 600 characters. -/
theorem fetch_article_first_success_witness :
    ((Source.mk "source_3" "id3" (.returns (some ⟨List.replicate 600 'a'⟩))).outcome
        = .returns (some ⟨List.replicate 600 'a'⟩))
      ∧ 500 < (pyStrip ⟨List.replicate 600 'a'⟩).length
      ∧ (fetch_article
            ([⟨"source_1", "id1", .returns (some ⟨List.replicate 50 'b'⟩)⟩,
              ⟨"source_2", "id2", .raises⟩]
              ++ ⟨"source_3", "id3", .returns (some ⟨List.replicate 600 'a'⟩)⟩ :: []) none).1
          = some (clean_text ⟨List.replicate 600 'a'⟩)
      ∧ LogEvent.fetchedFrom "source_3"
          ∈ (fetch_article
              ([⟨"source_1", "id1", .returns (some ⟨List.replicate 50 'b'⟩)⟩,
                ⟨"source_2", "id2", .raises⟩]
                ++ ⟨"source_3", "id3", .returns (some ⟨List.replicate 600 'a'⟩)⟩ :: []) none).2 := by
  have hlen : 500 < (pyStrip ⟨List.replicate 600 'a'⟩).length := by
    rw [pyStrip_replicate_length 600 'a' (by decide)]
    norm_num
  have h := fetch_article_first_success
    [⟨"source_1", "id1", .returns (some ⟨List.replicate 50 'b'⟩)⟩,
     ⟨"source_2", "id2", .raises⟩]
    [] ⟨"source_3", "id3", .returns (some ⟨List.replicate 600 'a'⟩)⟩ none
    ⟨List.replicate 600 'a'⟩
    (by
      intro s hs
      rw [List.mem_cons, List.mem_cons] at hs
      rcases hs with h | h | h
      · subst h
        right
        intro c' hc'
        cases hc'
        rw [pyStrip_replicate_length 50 'b' (by decide)]
        norm_num
      · subst h
        left
        rfl
      · exact absurd h (List.not_mem_nil s))
    rfl (by decide) hlen
  exact ⟨rfl, hlen, h.2.1, h.2.2⟩

/-! PdfProcessor (src/src/pdf_processor.py)

The opened PDF is embedded as the list of per-page outcomes of
`page.extract_text()`: a page either raises (caught and skipped) or returns
an optional text.  Texts are `List Char`. -/

/-- The `PdfConfig` fields used by extraction. -/
structure PdfCfg where
  page_chunk_size : Nat
  min_page_text_length : Nat
  max_text_length : Nat
  deriving Repr, DecidableEq

/-- Outcome of `pdf.pages[i]` / `page.extract_text()` for one page. -/
inductive PageFetch where
  | err
  | ok (text : Option (List Char))
  deriving Repr, DecidableEq

/-- Model of `PdfProcessor._clean_page_text`: whitespace-run collapse, printable
filter, strip. -/
def clean_page_text (l : List Char) : List Char :=
  if l = [] then []
  else pyStripL (removeNonPrintable (subRuns pyIsSpace ' ' l))

/-- Combined length of the accumulated page texts
(`sum(len(text) for text in ...)`). -/
def sumLen (ls : List (List Char)) : Nat := (ls.map List.length).sum

/-- Element-wise chunk builder: `k` is the remaining capacity of the current
chunk `cur` (held in reverse); a full chunk is emitted and a fresh one starts
(`n ≥ 1` at every call from `toChunks`). -/
def toChunksGo (n : Nat) : Nat → List PageFetch → List PageFetch → List (List PageFetch)
  | _, cur, [] => [cur.reverse]
  | 0, cur, x :: xs => cur.reverse :: toChunksGo n (n - 1) [x] xs
  | Nat.succ k, cur, x :: xs => toChunksGo n k (x :: cur) xs

/-- Model of `range(0, total_pages, chunk_size)` chunking of the page list.  A zero
chunk size makes Python's `range` raise `ValueError`; it is modelled by the
single-chunk case, which the claims never rely on. -/
def toChunks (n : Nat) (l : List PageFetch) : List (List PageFetch) :=
  match n, l with
  | _, [] => []
  | 0, l => [l]
  | Nat.succ m, x :: xs => toChunksGo (m + 1) m [x] xs

/-- The inner per-page loop of `_extract_text_from_pdf_object` over one
chunk: pages raising are skipped; a truthy page text is cleaned and kept when
nonempty with stripped length above the per-page minimum; after each
non-raising page the combined length is checked and the chunk is abandoned
once it exceeds the maximum.  `pagesLen` is the total length of previously
committed pages. -/
def chunkLoop (cfg : PdfCfg) (pagesLen : Nat) :
    List (List Char) → List PageFetch → List (List Char)
  | chunkAcc, [] => chunkAcc
  | chunkAcc, .err :: ps => chunkLoop cfg pagesLen chunkAcc ps
  | chunkAcc, .ok t :: ps =>
    let chunkAcc' :=
      match t with
      | none => chunkAcc
      | some txt =>
        if clean_page_text txt ≠ []
            ∧ cfg.min_page_text_length < (pyStripL (clean_page_text txt)).length
        then chunkAcc ++ [clean_page_text txt] else chunkAcc
    if cfg.max_text_length < pagesLen + sumLen chunkAcc' then chunkAcc'
    else chunkLoop cfg pagesLen chunkAcc' ps

/-- The outer chunk loop: extend the committed pages with each processed
chunk, stopping once the total length exceeds the maximum. -/
def chunksLoop (cfg : PdfCfg) : List (List Char) → List (List PageFetch) → List (List Char)
  | acc, [] => acc
  | acc, ch :: chs =>
    if cfg.max_text_length < sumLen (acc ++ chunkLoop cfg (sumLen acc) [] ch) then
      acc ++ chunkLoop cfg (sumLen acc) [] ch
    else chunksLoop cfg (acc ++ chunkLoop cfg (sumLen acc) [] ch) chs

/-- The `pages_text` list accumulated by `_extract_text_from_pdf_object`. -/
def accumulatePages (cfg : PdfCfg) (pages : List PageFetch) : List (List Char) :=
  chunksLoop cfg [] (toChunks cfg.page_chunk_size pages)

/-- Python `text.split('\n')`. -/
def splitOnNl : List Char → List (List Char)
  | [] => [[]]
  | c :: cs =>
    if c = '\n' then [] :: splitOnNl cs
    else
      match splitOnNl cs with
      | [] => [[c]]
      | l :: ls => (c :: l) :: ls

/-- Python `'\n'.join(...)`. -/
def joinNl : List (List Char) → List Char
  | [] => []
  | [l] => l
  | l :: ls => l ++ '\n' :: joinNl ls

/-- Python `'\n\n'.join(...)` (the page separator). -/
def joinBlank : List (List Char) → List Char
  | [] => []
  | [l] => l
  | l :: ls => l ++ '\n' :: '\n' :: joinBlank ls

/-- The cleaned line list of `_post_process_text`: normalize blank lines,
collapse space/tab runs, split on newlines, strip each line, and keep only
lines longer than 3 characters. -/
def ppLines (text : List Char) : List (List Char) :=
  ((splitOnNl (subRuns (fun c => c = ' ' || c = '\t') ' ' (collapseBlankRuns text))).map
    pyStripL).filter (fun ln => decide (3 < ln.length))

/-- The post-processed text before the truncation step
(`final_text = '\n'.join(cleaned_lines)`). -/
def ppBody (text : List Char) : List Char := joinNl (ppLines text)

/-- The marker appended on truncation
(`"\n[Text truncated due to length limit]"`). -/
def truncationMarker : List Char := '\n' :: "[Text truncated due to length limit]".data

/-- Model of `PdfProcessor._post_process_text`: line cleanup, then cut at
`max_text_length` with the explicit marker when too long, then strip. -/
def post_process_text (cfg : PdfCfg) (text : List Char) : List Char :=
  if text = [] then []
  else
    pyStripL (if cfg.max_text_length < (ppBody text).length then
        (ppBody text).take cfg.max_text_length ++ truncationMarker
      else ppBody text)

/-- Model of `PdfProcessor._extract_text_from_pdf_object`: accumulate page texts,
join with blank lines, post-process; `None` when no page produced text. -/
def extract_text_from_pdf_object (cfg : PdfCfg) (pages : List PageFetch) :
    Option (List Char) :=
  if accumulatePages cfg pages = [] then none
  else some (post_process_text cfg (joinBlank (accumulatePages cfg pages)))

/-! Bounded-accumulation lemmas: the page loop stops as soon as the running
total exceeds the maximum, so every committed page but the last fits. -/

theorem sumLen_append (l₁ l₂ : List (List Char)) :
    sumLen (l₁ ++ l₂) = sumLen l₁ + sumLen l₂ := by
  simp [sumLen]

theorem sumLen_dropLast_le (l : List (List Char)) : sumLen l.dropLast ≤ sumLen l := by
  induction l with
  | nil => exact Nat.le_refl _
  | cons x xs ih =>
    cases xs with
    | nil => simp [sumLen]
    | cons y t =>
      rw [List.dropLast_cons₂]
      unfold sumLen at ih ⊢
      simp only [List.map_cons, List.sum_cons] at ih ⊢
      omega

theorem chunkLoop_dropLast_le (cfg : PdfCfg) (plen : Nat) :
    ∀ (ch : List PageFetch) (acc : List (List Char)),
      plen + sumLen acc ≤ cfg.max_text_length →
      plen + sumLen ((chunkLoop cfg plen acc ch).dropLast) ≤ cfg.max_text_length := by
  intro ch
  induction ch with
  | nil =>
    intro acc hacc
    have hd := sumLen_dropLast_le acc
    unfold chunkLoop
    omega
  | cons p ps ih =>
    intro acc hacc
    cases p with
    | err => exact ih acc hacc
    | ok t =>
      cases t with
      | none =>
        rw [show chunkLoop cfg plen acc (.ok none :: ps)
            = (if cfg.max_text_length < plen + sumLen acc then acc
               else chunkLoop cfg plen acc ps) from rfl]
        rw [if_neg (by omega)]
        exact ih acc hacc
      | some txt =>
        by_cases hkeep : clean_page_text txt ≠ []
            ∧ cfg.min_page_text_length < (pyStripL (clean_page_text txt)).length
        · rw [show chunkLoop cfg plen acc (.ok (some txt) :: ps)
              = (if cfg.max_text_length < plen + sumLen (acc ++ [clean_page_text txt])
                 then acc ++ [clean_page_text txt]
                 else chunkLoop cfg plen (acc ++ [clean_page_text txt]) ps) from by
            simp only [chunkLoop, if_pos hkeep]]
          by_cases hover : cfg.max_text_length < plen + sumLen (acc ++ [clean_page_text txt])
          · rw [if_pos hover, List.dropLast_concat]
            exact hacc
          · rw [if_neg hover]
            exact ih _ (by omega)
        · rw [show chunkLoop cfg plen acc (.ok (some txt) :: ps)
              = (if cfg.max_text_length < plen + sumLen acc then acc
                 else chunkLoop cfg plen acc ps) from by
            simp only [chunkLoop, if_neg hkeep]]
          rw [if_neg (by omega)]
          exact ih acc hacc

theorem chunksLoop_dropLast_le (cfg : PdfCfg) :
    ∀ (chs : List (List PageFetch)) (acc : List (List Char)),
      sumLen acc ≤ cfg.max_text_length →
      sumLen ((chunksLoop cfg acc chs).dropLast) ≤ cfg.max_text_length := by
  intro chs
  induction chs with
  | nil =>
    intro acc hacc
    have hd := sumLen_dropLast_le acc
    unfold chunksLoop
    omega
  | cons ch chs ih =>
    intro acc hacc
    have hinner := chunkLoop_dropLast_le cfg (sumLen acc) ch []
      (by simpa [sumLen] using hacc)
    by_cases hover : cfg.max_text_length < sumLen (acc ++ chunkLoop cfg (sumLen acc) [] ch)
    · rw [show chunksLoop cfg acc (ch :: chs) = acc ++ chunkLoop cfg (sumLen acc) [] ch from by
        simp only [chunksLoop, if_pos hover]]
      have hne : chunkLoop cfg (sumLen acc) [] ch ≠ [] := by
        intro h0
        rw [h0, List.append_nil] at hover
        omega
      rw [List.dropLast_append_of_ne_nil _ hne, sumLen_append]
      exact hinner
    · rw [show chunksLoop cfg acc (ch :: chs)
          = chunksLoop cfg (acc ++ chunkLoop cfg (sumLen acc) [] ch) chs from by
        simp only [chunksLoop, if_neg hover]]
      exact ih _ (by omega)

theorem accumulatePages_early_stop (cfg : PdfCfg) (pages : List PageFetch) :
    sumLen (accumulatePages cfg pages).dropLast ≤ cfg.max_text_length :=
  chunksLoop_dropLast_le cfg _ [] (by simp [sumLen])

/-! Structure of the post-processed text: it is a `'\n'`-join of stripped
lines longer than 3 characters, so its first character is never whitespace;
appending the truncation marker keeps the last character non-whitespace, and
the final `strip()` of `_post_process_text` is the identity there. -/

theorem head?_dropWhile_false (p : Char → Bool) :
    ∀ (l : List Char) (c : Char), (l.dropWhile p).head? = some c → p c = false := by
  intro l
  induction l with
  | nil => intro c h; simp at h
  | cons a t ih =>
    intro c h
    by_cases hp : p a = true
    · rw [List.dropWhile_cons_of_pos hp] at h
      exact ih c h
    · rw [List.dropWhile_cons_of_neg hp] at h
      simp only [List.head?_cons, Option.some.injEq] at h
      subst h
      exact Bool.not_eq_true _ ▸ (by simpa using hp)

theorem isPrefix_head?_eq {l₁ l₂ : List Char} (h : l₁ <+: l₂) (hne : l₁ ≠ []) :
    l₂.head? = l₁.head? := by
  obtain ⟨t, rfl⟩ := h
  cases l₁ with
  | nil => exact absurd rfl hne
  | cons a s => rfl

theorem pyStripL_head_not_space (l : List Char) (c : Char)
    (h : (pyStripL l).head? = some c) : pyIsSpace c = false := by
  have hpre : pyStripL l <+: stripLeft l := by
    show stripRight (stripLeft l) <+: stripLeft l
    exact List.rdropWhile_prefix pyIsSpace (stripLeft l)
  have hne : pyStripL l ≠ [] := by
    intro h0
    rw [h0] at h
    simp at h
  have heq := isPrefix_head?_eq hpre hne
  rw [h] at heq
  exact head?_dropWhile_false pyIsSpace l c heq

theorem pyStripL_eq_self (l : List Char)
    (hh : ∀ c, l.head? = some c → pyIsSpace c = false)
    (hl : ∀ c, l.getLast? = some c → pyIsSpace c = false) :
    pyStripL l = l := by
  cases l with
  | nil => rfl
  | cons a t =>
    have ha : pyIsSpace a = false := hh a rfl
    unfold pyStripL stripLeft stripRight
    rw [List.dropWhile_cons_of_neg (by simp [ha])]
    cases hg : (a :: t).getLast? with
    | none => simp at hg
    | some b =>
      have hb := hl b hg
      have hrev : (a :: t).reverse.head? = some b := by
        rw [List.head?_reverse]
        exact hg
      cases hr : (a :: t).reverse with
      | nil => simp at hr
      | cons b' rt =>
        rw [hr] at hrev
        simp only [List.head?_cons, Option.some.injEq] at hrev
        subst hrev
        rw [List.dropWhile_cons_of_neg (by simp [hb]), ← hr, List.reverse_reverse]

theorem ppLines_mem (text : List Char) (l : List Char) (h : l ∈ ppLines text) :
    3 < l.length ∧ ∃ x, l = pyStripL x := by
  unfold ppLines at h
  obtain ⟨hmem, hlen⟩ := List.mem_filter.mp h
  obtain ⟨x, _, rfl⟩ := List.mem_map.mp hmem
  exact ⟨by simpa using hlen, x, rfl⟩

theorem joinNl_head? (l₀ : List Char) (ls : List (List Char)) (hne : l₀ ≠ []) :
    (joinNl (l₀ :: ls)).head? = l₀.head? := by
  cases ls with
  | nil => rfl
  | cons y ys =>
    show (l₀ ++ '\n' :: joinNl (y :: ys)).head? = l₀.head?
    exact List.head?_append_of_ne_nil _ hne

theorem ppBody_head_not_space (text : List Char) (c : Char)
    (h : (ppBody text).head? = some c) : pyIsSpace c = false := by
  unfold ppBody at h
  cases hlns : ppLines text with
  | nil =>
    rw [hlns] at h
    simp [joinNl] at h
  | cons l₀ rest =>
    rw [hlns] at h
    have hmem : l₀ ∈ ppLines text := by
      rw [hlns]
      exact List.mem_cons_self _ _
    obtain ⟨hlen, x, rfl⟩ := ppLines_mem text l₀ hmem
    have hne : pyStripL x ≠ [] := by
      intro h0
      rw [h0] at hlen
      simp at hlen
    rw [joinNl_head? _ rest hne] at h
    exact pyStripL_head_not_space x c h

theorem head?_take_pos (n : Nat) (l : List Char) (hn : 0 < n) :
    (l.take n).head? = l.head? := by
  cases l with
  | nil => simp
  | cons a t =>
    cases n with
    | zero => omega
    | succ m => rfl

/-- C6. Whenever the post-processed text of the accumulated pages would
exceed `max_text_length`, `_extract_text_from_pdf_object` returns exactly the
prefix of that text cut at `max_text_length` characters followed by the
explicit truncation marker `"\n[Text truncated due to length limit]"` — the
text is never silently cut — and page accumulation stopped early: all
committed pages except the last fit within `max_text_length`. -/
theorem pdf_truncated_with_marker (cfg : PdfCfg) (pages : List PageFetch)
    (hmax : 0 < cfg.max_text_length)
    (hover : cfg.max_text_length
      < (ppBody (joinBlank (accumulatePages cfg pages))).length) :
    extract_text_from_pdf_object cfg pages
        = some ((ppBody (joinBlank (accumulatePages cfg pages))).take cfg.max_text_length
            ++ truncationMarker)
      ∧ sumLen (accumulatePages cfg pages).dropLast ≤ cfg.max_text_length := by
  have hppne : ppBody (joinBlank (accumulatePages cfg pages)) ≠ [] := by
    intro h0
    rw [h0] at hover
    simp at hover
  have hjne : joinBlank (accumulatePages cfg pages) ≠ [] := by
    intro h0
    apply hppne
    rw [h0]
    rfl
  have haccne : accumulatePages cfg pages ≠ [] := by
    intro h0
    apply hjne
    rw [h0]
    rfl
  have htake_ne : (ppBody (joinBlank (accumulatePages cfg pages))).take
      cfg.max_text_length ≠ [] := by
    intro h0
    have hlen0 : ((ppBody (joinBlank (accumulatePages cfg pages))).take
        cfg.max_text_length).length = 0 := by
      rw [h0]
      rfl
    rw [List.length_take] at hlen0
    omega
  have hsh : ∀ c, ((ppBody (joinBlank (accumulatePages cfg pages))).take
        cfg.max_text_length ++ truncationMarker).head? = some c →
      pyIsSpace c = false := by
    intro c hc
    rw [List.head?_append_of_ne_nil _ htake_ne,
      head?_take_pos _ _ hmax] at hc
    exact ppBody_head_not_space _ c hc
  have hsl : ∀ c, ((ppBody (joinBlank (accumulatePages cfg pages))).take
        cfg.max_text_length ++ truncationMarker).getLast? = some c →
      pyIsSpace c = false := by
    intro c hc
    rw [List.getLast?_append_of_ne_nil _ (by decide : truncationMarker ≠ []),
      (by decide : truncationMarker.getLast? = some ']')] at hc
    simp only [Option.some.injEq] at hc
    subst hc
    decide
  refine ⟨?_, accumulatePages_early_stop cfg pages⟩
  unfold extract_text_from_pdf_object
  rw [if_neg haccne]
  unfold post_process_text
  rw [if_neg hjne, if_pos hover, pyStripL_eq_self _ hsh hsl]

set_option maxRecDepth 8192 in
/-- Witness for C6: one 30-character page against a 10-character cap. -/
theorem pdf_truncated_with_marker_witness :
    (0 < 10)
      ∧ 10 < (ppBody (joinBlank (accumulatePages ⟨2, 1, 10⟩
          [PageFetch.ok (some (List.replicate 30 'a'))]))).length
      ∧ extract_text_from_pdf_object ⟨2, 1, 10⟩ [PageFetch.ok (some (List.replicate 30 'a'))]
          = some ((ppBody (joinBlank (accumulatePages ⟨2, 1, 10⟩
              [PageFetch.ok (some (List.replicate 30 'a'))]))).take 10 ++ truncationMarker)
      ∧ sumLen (accumulatePages ⟨2, 1, 10⟩
          [PageFetch.ok (some (List.replicate 30 'a'))]).dropLast ≤ 10 := by
  have h := pdf_truncated_with_marker ⟨2, 1, 10⟩
    [PageFetch.ok (some (List.replicate 30 'a'))] (by norm_num) (by decide)
  exact ⟨by norm_num, by decide, h.1, h.2⟩

end SysRev
